import Mathlib

/-!
Verification of the `ofgem-watch` change-detection poller (`ofgem-poll.js`)
against its natural-language specification.

The JavaScript source is shallowly embedded: strings are `List Char`,
fallible operations return `Option`, external effects (network fetches,
JSON parsing, email delivery) are passed in as explicit oracles, and the
regexes used by `parsePublicationFromMarkup` are modelled by specialised
matcher functions that implement the exact leftmost / lazy / greedy
semantics of the concrete patterns in the source.
-/

namespace OfgemWatch

/-! ## Generic string helpers (List Char) -/

/-- Predicate `startsWith pat s`: true when `pat` is an initial segment of `s`. -/
def startsWith : List Char → List Char → Bool
  | [], _ => true
  | _ :: _, [] => false
  | p :: ps, c :: cs => p == c && startsWith ps cs

/-- JavaScript `s.includes(pat)`: `pat` occurs as a contiguous substring of `s`. -/
def listContains (s pat : List Char) : Bool :=
  (List.range (s.length + 1)).any (fun i => startsWith pat (s.drop i))

/-- Whitespace characters removed by JavaScript `String.prototype.trim`
(ASCII subset; the markup handled by the poller is ASCII). -/
def isJsWhitespace (c : Char) : Bool :=
  c == ' ' || c == '\t' || c == '\n' || c == '\r' ||
  c == (Char.ofNat 11) || c == (Char.ofNat 12) || c == (Char.ofNat 160)

/-- JavaScript `s.trim()`. -/
def trimJs (s : List Char) : List Char :=
  ((s.dropWhile isJsWhitespace).reverse.dropWhile isJsWhitespace).reverse

/-- JavaScript `s.toLowerCase()` (ASCII behaviour, which covers the
keyword matching done by the poller). -/
def toLowerList (s : List Char) : List Char := s.map Char.toLower

/-- JavaScript `s.split(sep)` for a single-character separator:
`",".split(',') = ["", ""]`, `"a,b".split(',') = ["a", "b"]`. -/
def splitOnChar (sep : Char) : List Char → List (List Char)
  | [] => [[]]
  | c :: rest =>
    let r := splitOnChar sep rest
    if c == sep then [] :: r
    else
      match r with
      | h :: t => (c :: h) :: t
      | [] => [[c]]

/-- One global string replacement pass, fuelled (the wrapper passes
`s.length`, which suffices for a non-empty pattern): JavaScript
`s.replace(/pat/g, rep)` for a literal pattern — leftmost, non-overlapping,
the replacement text is not rescanned. -/
def replaceAllFuel (pat rep : List Char) : Nat → List Char → List Char
  | 0, s => s
  | fuel + 1, s =>
    match s with
    | [] => []
    | c :: rest =>
      if startsWith pat (c :: rest) && !pat.isEmpty then
        rep ++ replaceAllFuel pat rep fuel ((c :: rest).drop pat.length)
      else
        c :: replaceAllFuel pat rep fuel rest

/-- JavaScript `s.replace(/pat/g, rep)` for a literal non-empty pattern. -/
def replaceAll (pat rep s : List Char) : List Char :=
  replaceAllFuel pat rep s.length s

/-! ## The Item data model

`ofgem-poll.js` publications are plain objects `{ title, link, date }`. -/

structure Publication where
  title : List Char
  link : List Char
  date : List Char
deriving DecidableEq, Repr

/-! ## parsePublicationFromMarkup (ofgem-poll.js lines 80–112)

The source applies five sequential entity-decoding passes and then three
JavaScript regexes.  Each regex is embedded as a matcher implementing the
standard backtracking semantics of that concrete pattern:

* leftmost starting position wins (`findSome?` over positions in
  increasing order);
* a lazy gap `.*?L` tries the nearest following occurrence of `L` first
  and on downstream failure extends to later occurrences (inner
  `findSome?` over positions in increasing order);
* greedy `[^>]*` before a literal tries the longest consumed run first
  (`findSome?` over consumed lengths in decreasing order);
* `[^x]*x` after a literal deterministically consumes up to and including
  the first `x` (shorter runs would leave a non-`x` character before the
  literal `x`, so no backtracking is possible);
* a greedy capture `([^x]+)` followed by a literal starting with `x`
  succeeds only with the maximal run, for the same reason.
-/

/-- HTML entity decoding: the five sequential global replaces of
`parsePublicationFromMarkup` in source order
(`&amp;`→`&`, `&lt;`→`<`, `&gt;`→`>`, `&quot;`→`"`, `&#039;`→`'`). -/
def decodeEntities (markup : List Char) : List Char :=
  replaceAll "&#039;".toList "\x27".toList
    (replaceAll "&quot;".toList "\"".toList
      (replaceAll "&gt;".toList ">".toList
        (replaceAll "&lt;".toList "<".toList
          (replaceAll "&amp;".toList "&".toList markup))))

/-- Regex fragment `[^>]*>`: consume up to and including the first `>`; `none` when
there is no `>` in the rest of the input. -/
def afterGt (s : List Char) : Option (List Char) :=
  match s.dropWhile (fun c => c != '>') with
  | [] => none
  | _ :: rest => some rest

/-- Tail of the title regex: `.*?<span[^>]*>([^<]+)<\/span>` (with `/s`,
so the lazy gap crosses newlines).  Searches forward for the first
`<span` occurrence whose continuation succeeds. -/
def matchInnerSpan (s : List Char) : Option (List Char) :=
  (List.range (s.length + 1)).findSome? fun i =>
    if startsWith "<span".toList (s.drop i) then
      match afterGt ((s.drop i).drop 5) with
      | none => none
      | some rest =>
        let cap := rest.takeWhile (fun c => c != '<')
        if !cap.isEmpty && startsWith "</span>".toList (rest.drop cap.length) then
          some cap
        else none
    else none

/-- Middle of the title regex: `.*?<span[^>]*>` followed by
`matchInnerSpan`; on downstream failure the lazy gap extends to the next
`<span` occurrence. -/
def matchMiddleSpan (s : List Char) : Option (List Char) :=
  (List.range (s.length + 1)).findSome? fun i =>
    if startsWith "<span".toList (s.drop i) then
      match afterGt ((s.drop i).drop 5) with
      | none => none
      | some rest => matchInnerSpan rest
    else none

/-- The capture of the title regex
`/<h3[^>]*>.*?<span[^>]*>.*?<span[^>]*>([^<]+)<\/span>/s`
(`titleMatch[1]` in the source), or `none` when the regex does not match. -/
def titleMatch (s : List Char) : Option (List Char) :=
  (List.range (s.length + 1)).findSome? fun i =>
    if startsWith "<h3".toList (s.drop i) then
      match afterGt ((s.drop i).drop 3) with
      | none => none
      | some rest => matchMiddleSpan rest
    else none

/-- The capture of the link regex `/href="([^"]+)"/`
(`linkMatch[1]` in the source), or `none` when the regex does not match. -/
def linkMatch (s : List Char) : Option (List Char) :=
  (List.range (s.length + 1)).findSome? fun i =>
    if startsWith "href=\"".toList (s.drop i) then
      let rest := (s.drop i).drop 6
      let cap := rest.takeWhile (fun c => c != '"')
      if !cap.isEmpty && cap.length < rest.length then some cap else none
    else none

/-- The second capture of the date regex
`/<time[^>]*datetime="([^"]+)"[^>]*>([^<]+)<\/time>/`
(`dateMatch[2]` in the source), or `none` when the regex does not match.
The greedy `[^>]*` before `datetime="` is tried longest-first; the
literal `datetime="` contains no `>`, so consumed lengths range over the
maximal `>`-free run after `<time`. -/
def dateMatch (s : List Char) : Option (List Char) :=
  (List.range (s.length + 1)).findSome? fun i =>
    if startsWith "<time".toList (s.drop i) then
      let rest := (s.drop i).drop 5
      let run := rest.takeWhile (fun c => c != '>')
      ((List.range (run.length + 1)).reverse).findSome? fun j =>
        if startsWith "datetime=\"".toList (rest.drop j) then
          let r2 := rest.drop (j + 10)
          let cap1 := r2.takeWhile (fun c => c != '"')
          if cap1.isEmpty then none
          else
            match r2.drop cap1.length with
            | '"' :: r3 =>
              match afterGt r3 with
              | none => none
              | some r4 =>
                let cap2 := r4.takeWhile (fun c => c != '<')
                if !cap2.isEmpty && startsWith "</time>".toList (r4.drop cap2.length) then
                  some cap2
                else none
            | _ => none
        else none
    else none

/-- The scraping base prepended to every extracted href
(source line 96: backtick template `https://www.ofgem.gov.uk${linkMatch[1]}`). -/
def ofgemBase : List Char := "https://www.ofgem.gov.uk".toList

/-- The literal placeholder used when no date element is found. -/
def unknownLit : List Char := "Unknown".toList

/-- Function `parsePublicationFromMarkup` (source lines 80–112).  JavaScript
truthiness: `!title` is true for both `null` and the empty string, so an
all-whitespace title capture is rejected; `link` is the base concatenated
with a capture and so is never empty when the link regex matched. -/
def parsePublicationFromMarkup (markup : List Char) : Option Publication :=
  let decoded := decodeEntities markup
  let titleOpt := (titleMatch decoded).map trimJs
  let linkOpt := (linkMatch decoded).map (fun cap => ofgemBase ++ cap)
  let date :=
    match dateMatch decoded with
    | some d => trimJs d
    | none => unknownLit
  match titleOpt, linkOpt with
  | some t, some l =>
    if t.isEmpty || l.isEmpty then none
    else some { title := t, link := l, date := date }
  | _, _ => none

/-! ## State store (ofgem-poll.js lines 56–73)

`loadState` wraps `fs.existsSync` / `fs.readFileSync` / `JSON.parse` in a
`try`/`catch` returning `null` on any failure.  The storage location is
modelled as a `StoredFile`; `JSON.parse` of the file content is an oracle
returning `none` when parsing throws (the `catch` turns that into `null`). -/

inductive StoredFile where
  /-- Case where `fs.existsSync` is false: no prior run. -/
  | absent
  /-- the file exists but `readFileSync` throws (caught, yielding null). -/
  | unreadable
  /-- the file exists with this content. -/
  | content (c : List Char)
deriving DecidableEq

/-- Function `loadState` (source lines 56–65): total — every failure path is
caught and converted to `none`. -/
def loadState (parseJson : List Char → Option Publication) :
    StoredFile → Option Publication
  | .absent => none
  | .unreadable => none
  | .content c => parseJson c

/-! ## Change detection and the relevance filter (pollForUpdates, lines 506–536) -/

/-- The identity key `` `${publication.title}|${publication.link}` ``
(source lines 507–510). -/
def identityKey (p : Publication) : List Char :=
  p.title ++ '|' :: p.link

/-- The branch condition `currentId !== previousId` (source line 512):
`previousId` is `null` when no previous publication is stored, and
JavaScript strict inequality between a string and `null` is always true. -/
def isNewPublication (cur : Publication) (prev : Option Publication) : Bool :=
  decide (some (identityKey cur) ≠ prev.map identityKey)

/-- Outcome classification of the Change Detector.  Modelled from the
spec (§4.3): the code has no such function — `pollForUpdates` compares
identity keys directly — so this definition follows the spec's words and
the theorems relate the code's comparison to it. -/
inductive Classification where
  | FirstObservation
  | Changed
  | Unchanged
deriving DecidableEq

/-- The spec's classification rule (§4.3): `FirstObservation` iff
`previous` is absent; otherwise `Changed` iff the identity keys differ,
else `Unchanged`. -/
def classifySpec (current : Publication) (previous : Option Publication) :
    Classification :=
  match previous with
  | none => .FirstObservation
  | some prev =>
    if identityKey current = identityKey prev then .Unchanged else .Changed

/-- The three configured keywords checked against the lowercased title
(source lines 516–519). -/
def tomatoKw : List Char := "tomato".toList

/-- Second configured keyword. -/
def senaptKw : List Char := "senapt".toList

/-- Third configured keyword. -/
def logicorKw : List Char := "logicor".toList

/-- The configured keyword set as a list (spec §4.3 relevance filter). -/
def keywords : List (List Char) := [tomatoKw, senaptKw, logicorKw]

/-- The relevance filter of `pollForUpdates` (source lines 516–521):
`hasTomato || hasSenapt || hasLogicor` on the lowercased title. -/
def titleHasKeyword (title : List Char) : Bool :=
  let titleLower := toLowerList title
  listContains titleLower tomatoKw ||
  listContains titleLower senaptKw ||
  listContains titleLower logicorKw

/-! ## Notification dispatch (sendNotification, lines 258–490) -/

/-- Delivery outcome as observed by the caller of `sendNotification`. -/
inductive SendOutcome where
  | delivered
  | deliveryFailed (msg : List Char)
deriving DecidableEq

/-- Function `sendNotification` (source lines 258–490): the whole body is wrapped
in `try`/`catch`; a rejected send or a truthy `error` field is thrown
inside the `try`, caught, and logged — the function always returns
normally.  The delivery transport is an oracle `Except`; containment is
expressed by this function being total into `SendOutcome` rather than
propagating the error. -/
def sendNotification (deliver : Except (List Char) Unit) : SendOutcome :=
  match deliver with
  | .ok _ => .delivered
  | .error e => .deliveryFailed e

/-! ## One polling cycle (pollForUpdates, lines 495–541) -/

/-- The externally observable effects of one cycle: whether
`sendNotification` was invoked (and with what outcome), and the argument
of `saveState` when it was invoked (`none` = state file untouched). -/
structure CycleOutcome where
  sendAttempt : Option SendOutcome
  saved : Option Publication
deriving DecidableEq

/-- The decision core of `pollForUpdates` (source lines 506–536), as a
pure function of the fetched publication, the stored previous
publication, and the delivery oracle.  When the identity key is new and a
keyword matches, `sendNotification` is awaited (it never throws, so
control always reaches the following `saveState`); when the key is new
without a keyword match, only `saveState` runs; otherwise the cycle is a
no-op. -/
def pollForUpdates (fetched stored : Option Publication)
    (deliver : Except (List Char) Unit) : CycleOutcome :=
  match fetched with
  | none => { sendAttempt := none, saved := none }
  | some latest =>
    if isNewPublication latest stored then
      if titleHasKeyword latest.title then
        { sendAttempt := some (sendNotification deliver), saved := some latest }
      else
        { sendAttempt := none, saved := some latest }
    else
      { sendAttempt := none, saved := none }

/-- State-file content after a cycle: `saveState` overwrites it wholesale
when called, otherwise it remains exactly as it was. -/
def nextStored (stored : Option Publication) (out : CycleOutcome) :
    Option Publication :=
  match out.saved with
  | some p => some p
  | none => stored

/-- The sequential poll loop (`setInterval(pollForUpdates, ...)`, source
lines 550–553): cycles run strictly one after another, each reading the
state left by the previous one.  Each list element supplies one cycle's
fetch result and delivery oracle; every scheduled cycle produces an
outcome — failures are contained inside the cycle. -/
def runCycles (stored : Option Publication) :
    List (Option Publication × Except (List Char) Unit) → List CycleOutcome
  | [] => []
  | (fetched, deliver) :: rest =>
    let out := pollForUpdates fetched stored deliver
    out :: runCycles (nextStored stored out) rest

/-! ## Fetch orchestrator (fetchLatestPublication, lines 225–252)

The two network channels are oracles: `api k` is the result of the
`(k+1)`-th call to `fetchLatestPublicationViaAPI` within one
orchestration (both that function and the scraping fallback catch all of
their own errors and return a publication or `null`).  The orchestrator's
externally visible behaviour is its result together with the ordered
trace of attempts and `setTimeout` delays. -/

inductive FetchEvent where
  /-- one call to `fetchLatestPublicationViaAPI`. -/
  | apiAttempt
  /-- an awaited `setTimeout` of this many milliseconds. -/
  | wait (ms : Nat)
  /-- the single call to `fetchLatestPublicationViaScraping`. -/
  | scrapeAttempt
deriving DecidableEq

/-- The retry loop `for (let attempt = 1; attempt <= maxRetries; attempt++)`
(source lines 234–243), structurally recursive on the number of loop
iterations still available (`remaining = maxRetries - attempt + 1`, so the
loop guard `attempt <= maxRetries` is `remaining ≥ 1` and the inner guard
`attempt < maxRetries` is `remaining ≥ 2`).  On failure of an attempt that
is not the last, the loop waits `rateLimitDelay * attempt`. -/
def apiRetryLoop (api : Nat → Option Publication) (d : Nat) :
    Nat → Nat → Option Publication × List FetchEvent
  | _, 0 => (none, [])
  | attempt, remaining + 1 =>
    match api attempt with
    | some p => (some p, [.apiAttempt])
    | none =>
      match remaining with
      | 0 => (none, [.apiAttempt])
      | r + 1 =>
        let tail := apiRetryLoop api d (attempt + 1) (r + 1)
        (tail.1, .apiAttempt :: .wait (d * attempt) :: tail.2)

/-- Function `fetchLatestPublication` (source lines 225–252): one initial API
call; on failure, an awaited fixed `rateLimitDelay`, then the retry loop
(attempts numbered 1..maxRetries); if still nothing, the scraping
fallback exactly once.  `d` is `CONFIG.rateLimitDelay`, `m` is
`CONFIG.maxRetries`, `scrape` the fallback's result. -/
def fetchLatestPublication (api : Nat → Option Publication)
    (scrape : Option Publication) (d m : Nat) :
    Option Publication × List FetchEvent :=
  match api 0 with
  | some p => (some p, [.apiAttempt])
  | none =>
    let r := apiRetryLoop api d 1 m
    let evs := FetchEvent.apiAttempt :: FetchEvent.wait d :: r.2
    match r.1 with
    | some p => (some p, evs)
    | none => (scrape, evs ++ [.scrapeAttempt])

/-- The trace left by the retry loop when every attempt fails, indexed
like `apiRetryLoop`. -/
def retryFailTrace (d : Nat) : Nat → Nat → List FetchEvent
  | _, 0 => []
  | _, 1 => [.apiAttempt]
  | attempt, r + 2 =>
    .apiAttempt :: .wait (d * attempt) :: retryFailTrace d (attempt + 1) (r + 1)

/-- Number of `apiAttempt` events in a trace. -/
def apiAttemptCount (evs : List FetchEvent) : Nat :=
  evs.countP (fun e => match e with | .apiAttempt => true | _ => false)

/-- Number of `scrapeAttempt` events in a trace. -/
def scrapeAttemptCount (evs : List FetchEvent) : Nat :=
  evs.countP (fun e => match e with | .scrapeAttempt => true | _ => false)

/-- The ordered list of delay durations in a trace. -/
def waitsOf (evs : List FetchEvent) : List Nat :=
  evs.filterMap (fun e => match e with | .wait ms => some ms | _ => none)

/-! ## Environment parsing and startup validation (lines 39–51) -/

/-- Truthiness of an environment variable value: absent (`undefined`) and
the empty string are falsy. -/
def envTruthy : Option (List Char) → Bool
  | none => false
  | some s => !s.isEmpty

/-- Field `ENV.notifyEmails` (source line 41):
`process.env.NOTIFY_EMAILS ? process.env.NOTIFY_EMAILS.split(',').map(e => e.trim()) : []`. -/
def parseNotifyEmails (raw : Option (List Char)) : List (List Char) :=
  match raw with
  | none => []
  | some s => if s.isEmpty then [] else (splitOnChar ',' s).map trimJs

/-- The startup validation condition (source line 46):
`!ENV.resendApiKey || ENV.notifyEmails.length === 0 || !ENV.senderEmail`;
when true the process exits with code 1 before polling. -/
def missingRequiredConfig (apiKey notifyRaw sender : Option (List Char)) : Bool :=
  !envTruthy apiKey ||
  decide ((parseNotifyEmails notifyRaw).length = 0) ||
  !envTruthy sender

/-! ## Concrete sample data used by witnesses and counterexamples -/

/-- A keyword-matching publication. -/
def pubTomato : Publication :=
  { title := "Tomato Energy licence decision".toList
    link := "https://www.ofgem.gov.uk/publications/tomato".toList
    date := "1 May 2025".toList }

/-- A publication matching no configured keyword. -/
def pubPlain : Publication :=
  { title := "Energy Market Outlook 2025".toList
    link := "https://www.ofgem.gov.uk/publications/outlook".toList
    date := "31 August 2025".toList }

/-- Variant of `pubPlain` with the same title and link but a different date. -/
def pubPlainOtherDate : Publication :=
  { title := "Energy Market Outlook 2025".toList
    link := "https://www.ofgem.gov.uk/publications/outlook".toList
    date := "1 September 2025".toList }

/-- First half of the identity-key collision pair: the separator `|`
occurs inside the title. -/
def pubPipeA : Publication :=
  { title := "A|B".toList, link := "C".toList, date := "1 May 2025".toList }

/-- Second half of the collision pair: different title and link, equal
identity key. -/
def pubPipeB : Publication :=
  { title := "A".toList, link := "B|C".toList, date := "2 May 2025".toList }

/-- Markup whose href is site-relative. -/
def markupRel : List Char :=
  "<h3><span><span>T</span></span></h3><a href=\"/pub/1\">x</a>".toList

/-- The publication extracted from `markupRel`. -/
def pubRel : Publication :=
  { title := "T".toList
    link := "https://www.ofgem.gov.uk/pub/1".toList
    date := unknownLit }

/-- Markup whose href is already an absolute URL on another host. -/
def markupAbs : List Char :=
  "<h3><span><span>T</span></span></h3><a href=\"https://example.com/a\">x</a>".toList

/-- The absolute hyperlink target inside `markupAbs`. -/
def absHref : List Char := "https://example.com/a".toList

/-- A successful delivery oracle. -/
def deliverOk : Except (List Char) Unit := .ok ()

/-- A failing delivery oracle. -/
def deliverBoom : Except (List Char) Unit := .error "SMTP rejected".toList

/-! ## Theorems -/

/-- C1: the change classification follows the spec rule — the outcome is
`FirstObservation` exactly when the stored previous item is absent,
`Changed` exactly when a previous item exists and the identity keys
differ, and `Unchanged` otherwise; the code's branch condition
`currentId !== previousId` agrees with it, and with no prior state the
fetched item takes the new-item path: it is persisted, and a notification
is sent exactly when the relevance filter passes. -/
theorem classification_follows_rule (cur p : Publication)
    (d : Except (List Char) Unit) :
    classifySpec cur none = Classification.FirstObservation ∧
    isNewPublication cur none = true ∧
    (pollForUpdates (some cur) none d).saved = some cur ∧
    (pollForUpdates (some cur) none d).sendAttempt.isSome = titleHasKeyword cur.title ∧
    classifySpec cur (some p) =
      (if identityKey cur = identityKey p then Classification.Unchanged
       else Classification.Changed) ∧
    isNewPublication cur (some p) = decide (identityKey cur ≠ identityKey p) := by
  refine ⟨rfl, by simp [isNewPublication], ?_, ?_, rfl, ?_⟩
  · cases h : titleHasKeyword cur.title <;>
      simp [pollForUpdates, isNewPublication, h]
  · cases h : titleHasKeyword cur.title <;>
      simp [pollForUpdates, isNewPublication, h]
  · simp [isNewPublication]

/-- C2: for a cycle whose fetched item is new (`Changed` or
`FirstObservation`), the relevance filter — a case-insensitive substring
match of the title against the configured keywords `tomato`, `senapt`,
`logicor` — decides dispatch: no keyword means `saveState` runs but
`sendNotification` does not; at least one keyword means both run. -/
theorem relevance_filter_gates_dispatch (cur : Publication)
    (prev : Option Publication) (d : Except (List Char) Unit)
    (hnew : isNewPublication cur prev = true) :
    titleHasKeyword cur.title =
      keywords.any (fun kw => listContains (toLowerList cur.title) kw) ∧
    (keywords.any (fun kw => listContains (toLowerList cur.title) kw) = false →
      (pollForUpdates (some cur) prev d).sendAttempt = none ∧
      (pollForUpdates (some cur) prev d).saved = some cur) ∧
    (keywords.any (fun kw => listContains (toLowerList cur.title) kw) = true →
      (pollForUpdates (some cur) prev d).sendAttempt = some (sendNotification d) ∧
      (pollForUpdates (some cur) prev d).saved = some cur) := by
  have hkw : titleHasKeyword cur.title =
      keywords.any (fun kw => listContains (toLowerList cur.title) kw) := by
    simp [titleHasKeyword, keywords, Bool.or_assoc]
  refine ⟨hkw, ?_, ?_⟩
  · intro h
    have h' : titleHasKeyword cur.title = false := by rw [hkw, h]
    simp [pollForUpdates, hnew, h']
  · intro h
    have h' : titleHasKeyword cur.title = true := by rw [hkw, h]
    simp [pollForUpdates, hnew, h']

/-- C2 witness: with no stored state, `pubPlain` (no keyword) is saved
without dispatch, while `pubTomato` (keyword `tomato`) is both dispatched
and saved. -/
theorem relevance_filter_gates_dispatch_witness :
    ((pollForUpdates (some pubPlain) none deliverOk).sendAttempt = none ∧
     (pollForUpdates (some pubPlain) none deliverOk).saved = some pubPlain) ∧
    ((pollForUpdates (some pubTomato) none deliverOk).sendAttempt =
        some (sendNotification deliverOk) ∧
     (pollForUpdates (some pubTomato) none deliverOk).saved = some pubTomato) :=
  ⟨(relevance_filter_gates_dispatch pubPlain none deliverOk (by decide)).2.1 (by decide),
   (relevance_filter_gates_dispatch pubTomato none deliverOk (by decide)).2.2 (by decide)⟩

/-- C4: when the fetched item's title and link both equal the stored
item's — whatever the dates — the cycle is a no-op: no notification, no
`saveState` call, and the state file remains exactly as it was. -/
theorem unchanged_identity_is_noop (cur prevP : Publication)
    (d : Except (List Char) Unit)
    (ht : cur.title = prevP.title) (hl : cur.link = prevP.link) :
    pollForUpdates (some cur) (some prevP) d =
      { sendAttempt := none, saved := none } ∧
    nextStored (some prevP) (pollForUpdates (some cur) (some prevP) d) =
      some prevP := by
  have hk : identityKey cur = identityKey prevP := by
    simp [identityKey, ht, hl]
  have hnew : isNewPublication cur (some prevP) = false := by
    simp [isNewPublication, hk]
  constructor
  · simp [pollForUpdates, hnew]
  · simp [pollForUpdates, hnew, nextStored]

/-- C4 witness: `pubPlain` versus `pubPlainOtherDate` share title and
link but have different dates; the cycle sends nothing and leaves the
state untouched. -/
theorem unchanged_identity_is_noop_witness :
    pubPlain.date ≠ pubPlainOtherDate.date ∧
    pollForUpdates (some pubPlain) (some pubPlainOtherDate) deliverOk =
      { sendAttempt := none, saved := none } ∧
    nextStored (some pubPlainOtherDate)
      (pollForUpdates (some pubPlain) (some pubPlainOtherDate) deliverOk) =
      some pubPlainOtherDate :=
  ⟨by decide,
   (unchanged_identity_is_noop pubPlain pubPlainOtherDate deliverOk rfl rfl).1,
   (unchanged_identity_is_noop pubPlain pubPlainOtherDate deliverOk rfl rfl).2⟩

/-- C6: `loadState` never throws — an absent file, an unreadable file,
and unparseable content all yield `none`, valid content yields the stored
item — and a cycle whose load returned `none` proceeds to
`FirstObservation` (the item is persisted), not to an error. -/
theorem loadState_total_and_first_observation
    (parseJson : List Char → Option Publication) (c : List Char)
    (item cur : Publication) (d : Except (List Char) Unit) :
    loadState parseJson .absent = none ∧
    loadState parseJson .unreadable = none ∧
    (parseJson c = none → loadState parseJson (.content c) = none) ∧
    (parseJson c = some item → loadState parseJson (.content c) = some item) ∧
    classifySpec cur (loadState parseJson .absent) =
      Classification.FirstObservation ∧
    (pollForUpdates (some cur) (loadState parseJson .absent) d).saved =
      some cur := by
  refine ⟨rfl, rfl, ?_, ?_, rfl, ?_⟩
  · intro h; simp [loadState, h]
  · intro h; simp [loadState, h]
  · cases h : titleHasKeyword cur.title <;>
      simp [pollForUpdates, loadState, isNewPublication, h]

/-- C6 witness: a parser that rejects everything (corrupted content)
yields `none`, one that accepts yields the item, and the subsequent cycle
persists the fetched item. -/
theorem loadState_total_and_first_observation_witness :
    loadState (fun _ => none) .absent = none ∧
    loadState (fun _ => none) (.content "not json".toList) = none ∧
    loadState (fun _ => some pubPlain) (.content "\x7b\x7d".toList) = some pubPlain ∧
    classifySpec pubTomato (loadState (fun _ => none) .absent) =
      Classification.FirstObservation ∧
    (pollForUpdates (some pubTomato) (loadState (fun _ => none) .absent)
        deliverOk).saved = some pubTomato :=
  ⟨(loadState_total_and_first_observation (fun _ => none) "not json".toList
      pubPlain pubTomato deliverOk).1,
   (loadState_total_and_first_observation (fun _ => none) "not json".toList
      pubPlain pubTomato deliverOk).2.2.1 rfl,
   (loadState_total_and_first_observation (fun _ => some pubPlain) "\x7b\x7d".toList
      pubPlain pubTomato deliverOk).2.2.2.1 rfl,
   (loadState_total_and_first_observation (fun _ => none) "not json".toList
      pubPlain pubTomato deliverOk).2.2.2.2.1,
   (loadState_total_and_first_observation (fun _ => none) "not json".toList
      pubPlain pubTomato deliverOk).2.2.2.2.2⟩

/-- C9: the identity key is not injective on (title, link) pairs —
`title "A|B", link "C"` and `title "A", link "B|C"` are two valid items
with different titles and different links but equal identity keys, so the
second is classified `Unchanged` against the first and the cycle neither
notifies nor writes state. -/
theorem identity_key_collision :
    pubPipeA.title ≠ pubPipeB.title ∧
    pubPipeA.link ≠ pubPipeB.link ∧
    pubPipeA.title ≠ [] ∧ pubPipeA.link ≠ [] ∧
    pubPipeB.title ≠ [] ∧ pubPipeB.link ≠ [] ∧
    identityKey pubPipeA = identityKey pubPipeB ∧
    classifySpec pubPipeB (some pubPipeA) = Classification.Unchanged ∧
    pollForUpdates (some pubPipeB) (some pubPipeA) deliverOk =
      { sendAttempt := none, saved := none } := by
  decide

/-- C10: startup validation can pass with no usable recipient —
`NOTIFY_EMAILS = ","` parses to a non-empty list of two empty strings, so
with the other variables set `missingRequiredConfig` is false and polling
begins although no non-empty recipient address is configured. -/
theorem config_passes_with_no_usable_recipient :
    parseNotifyEmails (some [',']) = [[], []] ∧
    (parseNotifyEmails (some [','])).length ≠ 0 ∧
    (∀ r ∈ parseNotifyEmails (some [',']), r = []) ∧
    missingRequiredConfig (some "re_key".toList) (some [','])
      (some "monitor@example.com".toList) = false := by
  decide

/-- When every API attempt fails, the retry loop returns `none` and
leaves exactly the fail trace. -/
theorem apiRetryLoop_all_fail (api : Nat → Option Publication) (d : Nat)
    (h : ∀ k, api k = none) :
    ∀ remaining attempt,
      apiRetryLoop api d attempt remaining =
        (none, retryFailTrace d attempt remaining) := by
  intro remaining
  induction remaining using Nat.strong_induction_on with
  | _ remaining ih =>
    intro attempt
    match remaining with
    | 0 => simp [apiRetryLoop, retryFailTrace]
    | 1 => simp [apiRetryLoop, retryFailTrace, h]
    | r + 2 =>
      have h1 := ih (r + 1) (by omega) (attempt + 1)
      simp [apiRetryLoop, retryFailTrace, h, h1]

/-- The fail trace contains one `apiAttempt` per loop iteration. -/
theorem retryFailTrace_apiCount (d : Nat) :
    ∀ remaining attempt,
      apiAttemptCount (retryFailTrace d attempt remaining) = remaining := by
  intro remaining
  induction remaining using Nat.strong_induction_on with
  | _ remaining ih =>
    intro attempt
    match remaining with
    | 0 => simp [retryFailTrace, apiAttemptCount]
    | 1 => simp [retryFailTrace, apiAttemptCount]
    | r + 2 =>
      simp [retryFailTrace, apiAttemptCount, List.countP_cons] at *
      have := ih (r + 2 - 1) (by omega) (attempt + 1)
      simp [apiAttemptCount] at this
      omega

/-- The fail trace contains no scraping attempt. -/
theorem retryFailTrace_scrapeCount (d : Nat) :
    ∀ remaining attempt,
      scrapeAttemptCount (retryFailTrace d attempt remaining) = 0 := by
  intro remaining
  induction remaining using Nat.strong_induction_on with
  | _ remaining ih =>
    intro attempt
    match remaining with
    | 0 => simp [retryFailTrace, scrapeAttemptCount]
    | 1 => simp [retryFailTrace, scrapeAttemptCount]
    | r + 2 =>
      have := ih (r + 2 - 1) (by omega) (attempt + 1)
      simp [scrapeAttemptCount, retryFailTrace, List.countP_cons] at *
      exact this

/-- The delays in the fail trace are `d * attempt` for the successive
attempt numbers, one fewer than the number of attempts. -/
theorem retryFailTrace_waits (d : Nat) :
    ∀ remaining attempt,
      waitsOf (retryFailTrace d attempt remaining) =
        (List.range' attempt (remaining - 1)).map (fun a => d * a) := by
  intro remaining
  induction remaining using Nat.strong_induction_on with
  | _ remaining ih =>
    intro attempt
    match remaining with
    | 0 => simp [retryFailTrace, waitsOf]
    | 1 => simp [retryFailTrace, waitsOf]
    | r + 2 =>
      have := ih (r + 2 - 1) (by omega) (attempt + 1)
      simp [waitsOf, retryFailTrace, List.range'] at *
      exact this

/-- C3: when every primary (API) attempt fails, the orchestrator makes
exactly `maxRetries + 1` API attempts, waits the fixed `rateLimitDelay`
before the first retry and `rateLimitDelay * attemptNumber` between
successive retries, then attempts scraping exactly once at the very end,
and returns whatever the scraping channel produced (the item on success,
`null` on failure). -/
theorem fetch_primary_exhausted (api : Nat → Option Publication)
    (scrape : Option Publication) (d m : Nat) (h : ∀ k, api k = none) :
    (fetchLatestPublication api scrape d m).1 = scrape ∧
    (fetchLatestPublication api scrape d m).2 =
      FetchEvent.apiAttempt :: FetchEvent.wait d ::
        (retryFailTrace d 1 m ++ [FetchEvent.scrapeAttempt]) ∧
    apiAttemptCount (fetchLatestPublication api scrape d m).2 = m + 1 ∧
    scrapeAttemptCount (fetchLatestPublication api scrape d m).2 = 1 ∧
    waitsOf (fetchLatestPublication api scrape d m).2 =
      d :: (List.range' 1 (m - 1)).map (fun a => d * a) := by
  have hloop := apiRetryLoop_all_fail api d h m 1
  have hfetch : fetchLatestPublication api scrape d m =
      (scrape, FetchEvent.apiAttempt :: FetchEvent.wait d ::
        (retryFailTrace d 1 m ++ [FetchEvent.scrapeAttempt])) := by
    simp [fetchLatestPublication, h, hloop]
  refine ⟨by simp [hfetch], by simp [hfetch], ?_, ?_, ?_⟩
  · rw [hfetch]
    have hc := retryFailTrace_apiCount d m 1
    simp only [apiAttemptCount, List.countP_cons, List.countP_append] at hc ⊢
    simp
    exact hc
  · rw [hfetch]
    have hc := retryFailTrace_scrapeCount d m 1
    simp only [scrapeAttemptCount, List.countP_cons, List.countP_append] at hc ⊢
    simpa using hc
  · rw [hfetch]
    have hc := retryFailTrace_waits d m 1
    simp only [waitsOf, List.filterMap_cons, List.filterMap_append] at hc ⊢
    simpa using hc

/-- C3 witness: with `CONFIG.maxRetries = 3` and
`CONFIG.rateLimitDelay = 2000`, an always-failing API makes 4 attempts
with delays 2000, 2000, 4000 before the single scraping attempt, whose
item is returned. -/
theorem fetch_primary_exhausted_witness :
    (fetchLatestPublication (fun _ => none) (some pubTomato) 2000 3).1 =
      some pubTomato ∧
    apiAttemptCount
      (fetchLatestPublication (fun _ => none) (some pubTomato) 2000 3).2 = 4 ∧
    scrapeAttemptCount
      (fetchLatestPublication (fun _ => none) (some pubTomato) 2000 3).2 = 1 ∧
    waitsOf
      (fetchLatestPublication (fun _ => none) (some pubTomato) 2000 3).2 =
      [2000, 2000, 4000] ∧
    (fetchLatestPublication (fun _ => none) none 2000 3).1 = none := by
  have hw := fetch_primary_exhausted (fun _ => none) (some pubTomato) 2000 3
    (fun _ => rfl)
  have hw2 := fetch_primary_exhausted (fun _ => none) none 2000 3 (fun _ => rfl)
  exact ⟨hw.1, hw.2.2.1, hw.2.2.2.1, by decide, hw2.1⟩

/-- Every scheduled cycle of the sequential loop produces an outcome,
whatever the fetch results and delivery outcomes were. -/
theorem runCycles_length (stored : Option Publication)
    (inputs : List (Option Publication × Except (List Char) Unit)) :
    (runCycles stored inputs).length = inputs.length := by
  induction inputs generalizing stored with
  | nil => rfl
  | cons hd tl ih => simpa [runCycles] using ih _

/-- C7: a delivery failure is fully contained — `sendNotification`
absorbs the error into a returned `deliveryFailed` outcome instead of
propagating it; in a cycle where a new keyword-matching item was fetched
but delivery failed, `saveState` still runs with that item; and the loop
still produces an outcome for every following scheduled cycle. -/
theorem notification_failure_contained (e : List Char) (cur : Publication)
    (prev : Option Publication) :
    sendNotification (.error e) = .deliveryFailed e ∧
    (isNewPublication cur prev = true → titleHasKeyword cur.title = true →
      (pollForUpdates (some cur) prev (.error e)).saved = some cur ∧
      (pollForUpdates (some cur) prev (.error e)).sendAttempt =
        some (.deliveryFailed e)) ∧
    (∀ (stored : Option Publication)
        (inputs : List (Option Publication × Except (List Char) Unit)),
      (runCycles stored inputs).length = inputs.length) := by
  refine ⟨rfl, ?_, fun stored inputs => runCycles_length stored inputs⟩
  intro hnew hkw
  simp [pollForUpdates, hnew, hkw, sendNotification]

/-- C7 witness: `pubTomato` fetched with no prior state and a failing
delivery — the outcome is recorded as `deliveryFailed`, the item is still
saved, and a two-cycle schedule yields two cycle outcomes. -/
theorem notification_failure_contained_witness :
    sendNotification (Except.error "SMTP rejected".toList) =
      SendOutcome.deliveryFailed "SMTP rejected".toList ∧
    (pollForUpdates (some pubTomato) none deliverBoom).saved = some pubTomato ∧
    (pollForUpdates (some pubTomato) none deliverBoom).sendAttempt =
      some (SendOutcome.deliveryFailed "SMTP rejected".toList) ∧
    (runCycles none
      [(some pubTomato, deliverBoom), (some pubPlain, deliverOk)]).length = 2 := by
  have hw := notification_failure_contained "SMTP rejected".toList pubTomato none
  exact ⟨hw.1, (hw.2.1 (by decide) (by decide)).1, (hw.2.1 (by decide) (by decide)).2,
    hw.2.2 none [(some pubTomato, deliverBoom), (some pubPlain, deliverOk)]⟩

/-- C8: `parsePublicationFromMarkup` is total (it is a function — every
failure path returns `none` rather than raising) and never returns a
partially-populated item: a returned item has a non-empty title and a
non-empty link, and its date is the literal `"Unknown"` whenever no
`<time>` element matched. -/
theorem parse_markup_valid_or_none (m : List Char) (p : Publication)
    (h : parsePublicationFromMarkup m = some p) :
    p.title ≠ [] ∧ p.link ≠ [] ∧
    (dateMatch (decodeEntities m) = none → p.date = unknownLit) := by
  unfold parsePublicationFromMarkup at h
  cases ht : titleMatch (decodeEntities m) with
  | none => simp [ht] at h
  | some t0 =>
    cases hl : linkMatch (decodeEntities m) with
    | none => simp [ht, hl] at h
    | some cap =>
      simp only [ht, hl, Option.map_some'] at h
      split at h
      · exact absurd h (by simp)
      · rename_i hcond
        simp only [Bool.or_eq_true, not_or, List.isEmpty_eq_true] at hcond
        simp only [Option.some.injEq] at h
        subst h
        refine ⟨hcond.1, hcond.2, ?_⟩
        intro hd
        simp [hd]

/-- C8 witness: `markupRel` parses to `pubRel`, whose title and link are
non-empty and whose date is the `"Unknown"` placeholder (no `<time>`
element in the markup). -/
theorem parse_markup_valid_or_none_witness :
    parsePublicationFromMarkup markupRel = some pubRel ∧
    pubRel.title ≠ [] ∧ pubRel.link ≠ [] ∧ pubRel.date = unknownLit := by
  have hw := parse_markup_valid_or_none markupRel pubRel (by decide)
  exact ⟨by decide, hw.1, hw.2.1, hw.2.2 (by decide)⟩

/-- C5 counterexample: in `markupAbs` the hyperlink target is already the
absolute URL `https://example.com/a`, yet the returned link is the base
URL concatenated with it, not that URL unchanged — the claim that an
absolute target is returned unchanged is false. -/
theorem absolute_href_not_unchanged :
    linkMatch (decodeEntities markupAbs) = some absHref ∧
    parsePublicationFromMarkup markupAbs =
      some { title := "T".toList, link := ofgemBase ++ absHref,
             date := unknownLit } ∧
    ofgemBase ++ absHref ≠ absHref := by
  decide

/-- C5 as amended: every link returned by `parsePublicationFromMarkup`
is the base URL `https://www.ofgem.gov.uk` concatenated with the
extracted href capture, unconditionally — so a site-relative href is
resolved to an absolute URL on the source's host, but an already-absolute
href is also prefixed rather than returned unchanged. -/
theorem parsed_link_is_base_prefixed (m : List Char) (p : Publication)
    (h : parsePublicationFromMarkup m = some p) :
    ∃ cap, linkMatch (decodeEntities m) = some cap ∧
      p.link = ofgemBase ++ cap := by
  unfold parsePublicationFromMarkup at h
  cases ht : titleMatch (decodeEntities m) with
  | none => simp [ht] at h
  | some t0 =>
    cases hl : linkMatch (decodeEntities m) with
    | none => simp [ht, hl] at h
    | some cap =>
      simp only [ht, hl, Option.map_some'] at h
      split at h
      · exact absurd h (by simp)
      · simp only [Option.some.injEq] at h
        subst h
        exact ⟨cap, rfl, rfl⟩

/-- C5 witness (amended claim): the site-relative href `/pub/1` in
`markupRel` is resolved against the base URL, yielding the absolute link
of `pubRel`. -/
theorem parsed_link_is_base_prefixed_witness :
    ∃ cap, linkMatch (decodeEntities markupRel) = some cap ∧
      pubRel.link = ofgemBase ++ cap :=
  parsed_link_is_base_prefixed markupRel pubRel (by decide)

end OfgemWatch
